import Mathlib

/-!
Shallow embedding of the combinator regex engine from
`src/combinator_regex.rs` (repository `regex-deriv`).

Patterns are the trees built by the public combinators
(`empty`, `dot`, `one`/`single_char`, `oneof`, `seq`, `alt`, `star`,
`maybe`).  A pattern's mutable tracking state is embedded as the
inductive `State`, mirroring the per-combinator state structs
(`EmptyState`, `DotState`, `CharState`, `CharFromState`, `SeqState`,
`AltState`, `StarState`, `MaybeState`); the mutating methods `start`,
`advance`, `accepts` become pure functions on `State`.  Rust strings
are embedded as `List Char` (the `input.chars()` iteration order).
-/

/-- The four-valued acceptance lattice (`enum Accepts`). -/
inductive Accepts where
  | Yes
  | No
  | Always
  | Never
deriving DecidableEq, Repr

/-- `Accepts::as_bool`: Yes/Always ↦ true, No/Never ↦ false. -/
def Accepts.as_bool : Accepts → Bool
  | .Yes | .Always => true
  | .No | .Never => false

/-- `Accepts::or`, the lattice combine: Always absorbs, then Yes, then No,
and Never only with Never. -/
def Accepts.or : Accepts → Accepts → Accepts
  | .Always, _ => .Always
  | _, .Always => .Always
  | .Yes, _ => .Yes
  | _, .Yes => .Yes
  | .No, _ => .No
  | _, .No => .No
  | .Never, .Never => .Never

/-- `enum SimpleState`, the shared four-state automaton of the
single-character leaf combinators. -/
inductive SimpleState where
  | Start
  | End
  | Both
  | Neither
deriving DecidableEq, Repr

/-- `SimpleState::new` -/
def SimpleState.new : SimpleState := .Neither

/-- `SimpleState::start` -/
def SimpleState.start : SimpleState → SimpleState
  | .Neither | .Start => .Start
  | .Both | .End => .Both

/-- `SimpleState::advance` (predicate matched the character). -/
def SimpleState.advance : SimpleState → SimpleState
  | .Neither | .End => .Neither
  | .Both | .Start => .End

/-- `SimpleState::die` (predicate did not match). -/
def SimpleState.die : SimpleState → SimpleState
  | _ => .Neither

/-- `SimpleState::accepts` -/
def SimpleState.accepts : SimpleState → Accepts
  | .End | .Both => .Yes
  | .Start => .No
  | .Neither => .Never

/-- Pattern trees built by the public combinators of `mod combinators`.
`one` is `Char(ch)` (also exposed as `single_char`), `oneof` is
`CharFrom(charset)`. -/
inductive Pattern where
  | empty
  | dot
  | one (ch : Char)
  | oneof (charset : List Char)
  | seq (first second : Pattern)
  | alt (left right : Pattern)
  | star (p : Pattern)
  | maybe (p : Pattern)
deriving DecidableEq, Repr

/-- Tracking states, one constructor per state struct of the source. -/
inductive State where
  | emptyS (empty : Bool)
  | dotS (s : SimpleState)
  | charS (ch : Char) (s : SimpleState)
  | charFromS (charset : List Char) (s : SimpleState)
  | seqS (s1 s2 : State)
  | altS (s1 s2 : State)
  | starS (init : Bool) (s : State)
  | maybeS (init : Bool) (s : State)
deriving DecidableEq, Repr

/-- `Regex::init_state` for each combinator (`EmptyState { empty: true }`,
`SimpleState::new()` for the leaves, `init: false` for Star/Maybe). -/
def Pattern.init_state : Pattern → State
  | .empty => .emptyS true
  | .dot => .dotS SimpleState.new
  | .one ch => .charS ch SimpleState.new
  | .oneof cs => .charFromS cs SimpleState.new
  | .seq p q => .seqS p.init_state q.init_state
  | .alt p q => .altS p.init_state q.init_state
  | .star p => .starS false p.init_state
  | .maybe p => .maybeS false p.init_state

/-- `RegexState::accepts` of every state struct. -/
def State.accepts : State → Accepts
  | .emptyS e => if e then .Yes else .Never
  | .dotS s => s.accepts
  | .charS _ s => s.accepts
  | .charFromS _ s => s.accepts
  | .seqS _ s2 => s2.accepts
  | .altS s1 s2 => (s1.accepts).or s2.accepts
  | .starS i s => if i then .Yes else s.accepts
  | .maybeS i s => if i then .Yes else s.accepts

/-- `RegexState::start` of every state struct.  `SeqState::start` starts
the second child only when the first child's post-start acceptance is
truthy. -/
def State.start : State → State
  | .emptyS _ => .emptyS true
  | .dotS s => .dotS s.start
  | .charS ch s => .charS ch s.start
  | .charFromS cs s => .charFromS cs s.start
  | .seqS s1 s2 =>
    let s1' := s1.start
    if s1'.accepts.as_bool then .seqS s1' s2.start else .seqS s1' s2
  | .altS s1 s2 => .altS s1.start s2.start
  | .starS _ s => .starS true s.start
  | .maybeS _ s => .maybeS true s.start

/-- `RegexState::advance` of every state struct.  `SeqState::advance`
advances the second child first (on its pre-step state), then the first
child, then restarts the second child when the first child accepts.
`StarState::advance` restarts its child and revives `init` when the
child accepts after the step. -/
def State.advance : State → Char → State
  | .emptyS _, _ => .emptyS false
  | .dotS s, _ => .dotS s.advance
  | .charS c s, ch => if ch = c then .charS c s.advance else .charS c s.die
  | .charFromS cs s, ch =>
    if cs.contains ch then .charFromS cs s.advance else .charFromS cs s.die
  | .seqS s1 s2, ch =>
    let s2' := s2.advance ch
    let s1' := s1.advance ch
    if s1'.accepts.as_bool then .seqS s1' s2'.start else .seqS s1' s2'
  | .altS s1 s2, ch => .altS (s1.advance ch) (s2.advance ch)
  | .starS _ s, ch =>
    let s' := s.advance ch
    if s'.accepts.as_bool then .starS true s'.start else .starS false s'
  | .maybeS _ s, ch => .maybeS false (s.advance ch)

/-- The character loop of `Regex::is_match`: advance on each character,
returning early on `Never` (false) or `Always` (true), and converting
the final acceptance with `as_bool` once input is exhausted. -/
def matchLoop : State → List Char → Bool
  | st, [] => st.accepts.as_bool
  | st, ch :: rest =>
    let st' := st.advance ch
    match st'.accepts with
    | .Never => false
    | .Always => true
    | _ => matchLoop st' rest

/-- `Regex::is_match`: build the initial state, `start()` it, and run the
short-circuiting character loop. -/
def Pattern.is_match (p : Pattern) (input : List Char) : Bool :=
  matchLoop p.init_state.start input

/-- Feeding every character with no early exit (the comparison run of the
spec's short-circuit-soundness property). -/
def runAll : State → List Char → State
  | st, [] => st
  | st, ch :: rest => runAll (st.advance ch) rest

/-- The no-early-exit variant of `is_match`: scan the whole input, then
convert the final `accepts()` with `as_bool`. -/
def Pattern.is_match_full (p : Pattern) (input : List Char) : Bool :=
  (runAll p.init_state.start input).accepts.as_bool

/-- The character loop of `is_match` with the `Always` early return
removed (only the `Never` exit remains). -/
def matchLoopNoAlways : State → List Char → Bool
  | st, [] => st.accepts.as_bool
  | st, ch :: rest =>
    let st' := st.advance ch
    match st'.accepts with
    | .Never => false
    | _ => matchLoopNoAlways st' rest

/-- Big-step relation for one `is_match` run: `MatchRun st l b` holds when
the driver loop, begun at state `st` with remaining input `l`, finishes
with boolean `b` (early `Never`/`Always` exits included).  Used to state
that the driver is total and deterministic. -/
inductive MatchRun : State → List Char → Bool → Prop where
  | done (st : State) : MatchRun st [] st.accepts.as_bool
  | stepNever (st : State) (ch : Char) (rest : List Char) :
      (st.advance ch).accepts = .Never → MatchRun st (ch :: rest) false
  | stepAlways (st : State) (ch : Char) (rest : List Char) :
      (st.advance ch).accepts = .Always → MatchRun st (ch :: rest) true
  | stepCont (st : State) (ch : Char) (rest : List Char) (b : Bool) :
      (st.advance ch).accepts ≠ .Never → (st.advance ch).accepts ≠ .Always →
      MatchRun (st.advance ch) rest b → MatchRun st (ch :: rest) b

-- Sanity checks: the unit tests of `mod tests` in the source.
example : (Pattern.one '0').is_match [] = false := by decide
example : (Pattern.one '0').is_match ['0'] = true := by decide
example : (Pattern.one '0').is_match ['1'] = false := by decide
example : (Pattern.one '0').is_match ['0', '0'] = false := by decide
example : (Pattern.oneof ['0', '1']).is_match ['1'] = true := by decide
example : (Pattern.oneof ['0', '1']).is_match ['2'] = false := by decide
example : (Pattern.oneof ['0', '1']).is_match ['0', '1'] = false := by decide
example : (Pattern.star (Pattern.one '0')).is_match [] = true := by decide
example : (Pattern.star (Pattern.one '0')).is_match ['0', '0'] = true := by decide
example : (Pattern.star (Pattern.one '0')).is_match ['0', '1'] = false := by decide
example : (Pattern.seq (Pattern.one '0') (Pattern.one '1')).is_match ['0', '1'] = true := by decide
example :
    (Pattern.alt (Pattern.one '0')
      (Pattern.seq (Pattern.one '1') (Pattern.star (Pattern.oneof ['0', '1'])))).is_match
      ['1', '1', '0', '1', '0', '0', '1'] = true := by decide
example :
    (Pattern.alt (Pattern.one '0')
      (Pattern.seq (Pattern.one '1') (Pattern.star (Pattern.oneof ['0', '1'])))).is_match
      ['0', '1', '0', '1', '0', '0', '1'] = false := by decide

/-! ### Helper lemmas -/

/-- `Accepts.or` never yields `Always` unless an operand is `Always`. -/
theorem or_no_always : ∀ a b : Accepts,
    (a = .Yes ∨ a = .No ∨ a = .Never) → (b = .Yes ∨ b = .No ∨ b = .Never) →
    (a.or b = .Yes ∨ a.or b = .No ∨ a.or b = .Never) := by
  intro a b ha hb
  rcases ha with rfl | rfl | rfl <;> rcases hb with rfl | rfl | rfl <;>
    simp [Accepts.or]

/-- `SimpleState::accepts` only yields `Yes`, `No` or `Never`. -/
theorem simple_accepts_no_always : ∀ s : SimpleState,
    s.accepts = .Yes ∨ s.accepts = .No ∨ s.accepts = .Never := by
  intro s
  cases s <;> simp [SimpleState.accepts]

/-- No tracking state of any combinator ever reports `Always`. -/
theorem accepts_no_always (st : State) :
    st.accepts = .Yes ∨ st.accepts = .No ∨ st.accepts = .Never := by
  induction st with
  | emptyS e => cases e <;> simp [State.accepts]
  | dotS s => simpa [State.accepts] using simple_accepts_no_always s
  | charS ch s => simpa [State.accepts] using simple_accepts_no_always s
  | charFromS cs s => exact simple_accepts_no_always s
  | seqS s1 s2 ih1 ih2 => exact ih2
  | altS s1 s2 ih1 ih2 => exact or_no_always _ _ ih1 ih2
  | starS i s ih =>
    cases i
    · exact ih
    · simp [State.accepts]
  | maybeS i s ih =>
    cases i
    · exact ih
    · simp [State.accepts]

theorem matchLoop_eq_noAlways : ∀ (l : List Char) (st : State),
    matchLoop st l = matchLoopNoAlways st l := by
  intro l
  induction l with
  | nil => intro st; rfl
  | cons c cs ih =>
    intro st
    rcases accepts_no_always ((st.advance c)) with h | h | h <;>
      simp [matchLoop, matchLoopNoAlways, h, ih]

theorem matchRun_total : ∀ (l : List Char) (st : State),
    MatchRun st l (matchLoop st l) := by
  intro l
  induction l with
  | nil => intro st; exact MatchRun.done st
  | cons c cs ih =>
    intro st
    cases hA : (st.advance c).accepts with
    | Never =>
      have hl : matchLoop st (c :: cs) = false := by simp [matchLoop, hA]
      rw [hl]
      exact MatchRun.stepNever st c cs hA
    | Always =>
      have hl : matchLoop st (c :: cs) = true := by simp [matchLoop, hA]
      rw [hl]
      exact MatchRun.stepAlways st c cs hA
    | Yes =>
      have hl : matchLoop st (c :: cs) = matchLoop (st.advance c) cs := by
        simp [matchLoop, hA]
      rw [hl]
      exact MatchRun.stepCont st c cs _ (by simp [hA]) (by simp [hA]) (ih _)
    | No =>
      have hl : matchLoop st (c :: cs) = matchLoop (st.advance c) cs := by
        simp [matchLoop, hA]
      rw [hl]
      exact MatchRun.stepCont st c cs _ (by simp [hA]) (by simp [hA]) (ih _)

theorem matchRun_det {st : State} {l : List Char} {b : Bool}
    (h : MatchRun st l b) : b = matchLoop st l := by
  induction h with
  | done st => rfl
  | stepNever st c cs hA => simp [matchLoop, hA]
  | stepAlways st c cs hA => simp [matchLoop, hA]
  | stepCont st c cs b hN hA hr ih =>
    cases hAcc : (st.advance c).accepts with
    | Never => exact absurd hAcc hN
    | Always => exact absurd hAcc hA
    | Yes => simpa [matchLoop, hAcc] using ih
    | No => simpa [matchLoop, hAcc] using ih

/-! ### Claims -/

/-- C1: the claim says early exit on `Never`/`Always` is sound: `is_match`
always equals the no-early-exit run.  The code violates it: on the
pattern `seq(seq(one('a'), one('a')), one('b'))` (language `"aab"`) with
input `"aab"`, `is_match` exits with `false` at the first character (the
second child of the outer `Seq` is dead, making `accepts()` report
`Never`, even though a later restart revives it), while the full scan
returns `true`. -/
theorem claim_C1_early_exit_divergence :
    (Pattern.seq (Pattern.seq (Pattern.one 'a') (Pattern.one 'a'))
        (Pattern.one 'b')).is_match ['a', 'a', 'b'] = false ∧
    (Pattern.seq (Pattern.seq (Pattern.one 'a') (Pattern.one 'a'))
        (Pattern.one 'b')).is_match_full ['a', 'a', 'b'] = true := by decide

/-- C2: the claim says `is_match(seq(A, B), s)` is true exactly when some
split `s = s1 ++ s2` has `A` matching `s1` and `B` matching `s2`.  The
code violates the right-to-left direction: with
`A = seq(one('a'), one('a'))`, `B = one('b')` and `s = "aab"`, the split
`"aa" ++ "b"` has both halves matching, yet `is_match(seq(A, B), s)` is
`false` (the unsound `Never` early exit of C1). -/
theorem claim_C2_seq_split_divergence :
    (Pattern.seq (Pattern.seq (Pattern.one 'a') (Pattern.one 'a'))
        (Pattern.one 'b')).is_match ['a', 'a', 'b'] = false ∧
    (Pattern.seq (Pattern.one 'a') (Pattern.one 'a')).is_match ['a', 'a'] = true ∧
    (Pattern.one 'b').is_match ['b'] = true ∧
    ['a', 'a', 'b'] = ['a', 'a'] ++ ['b'] := by decide

/-- C3: the claim says `is_match(alt(A, B), s)` equals
`is_match(A, s) || is_match(B, s)`.  The code violates it: with
`A = seq(seq(one('a'), one('a')), one('b'))`, `B = one('a')` and
`s = "aab"`, the alternation matches (its children are never `Never`
simultaneously, so no early exit fires and the final lattice `or` is
truthy) while each branch alone returns `false` (`A` alone trips the
unsound `Never` early exit of C1, `B` alone is dead after two
characters). -/
theorem claim_C3_alt_divergence :
    (Pattern.alt
        (Pattern.seq (Pattern.seq (Pattern.one 'a') (Pattern.one 'a'))
          (Pattern.one 'b'))
        (Pattern.one 'a')).is_match ['a', 'a', 'b'] = true ∧
    ((Pattern.seq (Pattern.seq (Pattern.one 'a') (Pattern.one 'a'))
          (Pattern.one 'b')).is_match ['a', 'a', 'b'] ||
        (Pattern.one 'a').is_match ['a', 'a', 'b']) = false := by decide

/-- C4 counterexample: the claim says those branches return `Always`; in
the code `EmptyState::accepts` returns `Yes` while `empty` is true, and
`StarState::accepts`/`MaybeState::accepts` return `Yes` while `init` is
true — never `Always`. -/
theorem claim_C4_counterexample :
    ¬ ((State.emptyS true).accepts = Accepts.Always ∧
        (State.starS true (State.dotS SimpleState.Neither)).accepts
          = Accepts.Always ∧
        (State.maybeS true (State.dotS SimpleState.Neither)).accepts
          = Accepts.Always) := by decide

/-- C4 (amended): Empty's tracking state returns `Accepts::Yes` (a truthy
value, but not `Always`) while it is still tracking the empty string,
and ZeroOrMore's and Optional's tracking states return `Accepts::Yes`
while their already-satisfied `init` branch holds. -/
theorem claim_C4_init_branch_yes :
    (State.emptyS true).accepts = Accepts.Yes ∧
    (∀ st : State, (State.starS true st).accepts = Accepts.Yes) ∧
    (∀ st : State, (State.maybeS true st).accepts = Accepts.Yes) :=
  ⟨rfl, fun _ => rfl, fun _ => rfl⟩

/-- C5: `SeqState::advance(ch)` first advances the second child on its
pre-step state, then advances the first child, and starts the second
child afterwards exactly when the advanced first child's acceptance is
truthy. -/
theorem claim_C5_seq_advance_order (s1 s2 : State) (ch : Char) :
    (State.seqS s1 s2).advance ch =
      (let s2' := s2.advance ch
       let s1' := s1.advance ch
       if s1'.accepts.as_bool then State.seqS s1' s2'.start
       else State.seqS s1' s2') := rfl

/-- C6: the full `SimpleState` transition table: `start` sends
Neither/Start to Start and Both/End to Both; `advance` sends Neither/End
to Neither and Both/Start to End; `die` sends everything to Neither;
`accepts` yields Yes on End/Both, No on Start, Never on Neither. -/
theorem claim_C6_simple_state_table :
    SimpleState.Neither.start = .Start ∧ SimpleState.Start.start = .Start ∧
    SimpleState.Both.start = .Both ∧ SimpleState.End.start = .Both ∧
    SimpleState.Neither.advance = .Neither ∧
    SimpleState.End.advance = .Neither ∧
    SimpleState.Both.advance = .End ∧ SimpleState.Start.advance = .End ∧
    (∀ s : SimpleState, s.die = .Neither) ∧
    SimpleState.End.accepts = .Yes ∧ SimpleState.Both.accepts = .Yes ∧
    SimpleState.Start.accepts = .No ∧ SimpleState.Neither.accepts = .Never :=
  ⟨rfl, rfl, rfl, rfl, rfl, rfl, rfl, rfl, fun _ => rfl,
    rfl, rfl, rfl, rfl⟩

/-- C7: the lattice combine `Accepts::or` is commutative and associative,
`Always` is absorbing, and `Never` combined with `Never` is `Never`. -/
theorem claim_C7_lattice_laws :
    (∀ a b : Accepts, a.or b = b.or a) ∧
    (∀ a b c : Accepts, (a.or b).or c = a.or (b.or c)) ∧
    (∀ a : Accepts, Accepts.Always.or a = .Always) ∧
    Accepts.Never.or .Never = .Never := by
  refine ⟨fun a b => ?_, fun a b c => ?_, fun a => ?_, rfl⟩
  · cases a <;> cases b <;> rfl
  · cases a <;> cases b <;> cases c <;> rfl
  · cases a <;> rfl

/-- C10: `accepts()` never returns `Always` on any tracking state (it is
always `Yes`, `No` or `Never`), so `is_match` computes the same boolean
as the loop whose `Always` early return is removed. -/
theorem claim_C10_always_unreachable :
    (∀ st : State,
      st.accepts = .Yes ∨ st.accepts = .No ∨ st.accepts = .Never) ∧
    (∀ (p : Pattern) (input : List Char),
      p.is_match input = matchLoopNoAlways p.init_state.start input) :=
  ⟨accepts_no_always, fun _ input => matchLoop_eq_noAlways input _⟩

theorem matchLoop_maybe_false : ∀ (l : List Char) (st : State),
    matchLoop (State.maybeS false st) l = matchLoop st l := by
  intro l
  induction l with
  | nil => intro st; rfl
  | cons c cs ih =>
    intro st
    cases hA : (st.advance c).accepts <;>
      simp [matchLoop, State.advance, State.accepts, hA, ih]

/-- C8: `is_match(maybe(A), s)` equals `s == "" || is_match(A, s)`: the
optional combinator accepts the empty input outright and otherwise
behaves exactly like its child (the `init` branch is retracted by the
first `advance`, after which the wrapper is transparent). -/
theorem claim_C8_maybe_semantics (p : Pattern) (s : List Char) :
    (Pattern.maybe p).is_match s = (s.isEmpty || p.is_match s) := by
  cases s with
  | nil => rfl
  | cons c cs =>
    have h1 : (Pattern.maybe p).init_state.start
        = State.maybeS true p.init_state.start := rfl
    cases hA : (p.init_state.start.advance c).accepts <;>
      simp [Pattern.is_match, h1, matchLoop, State.advance, State.accepts,
        hA, matchLoop_maybe_false]

/-- C8 witness at a concrete pattern and input. -/
theorem claim_C8_maybe_semantics_witness :
    (Pattern.maybe (Pattern.one 'a')).is_match ['a']
      = (['a'].isEmpty || (Pattern.one 'a').is_match ['a']) :=
  claim_C8_maybe_semantics (Pattern.one 'a') ['a']

/-- C9: the matching driver is total and deterministic: for every pattern
and input the big-step run relation holds of the boolean `is_match`
computes, and any boolean the relation can produce is that one. -/
theorem claim_C9_total_deterministic :
    ∀ (p : Pattern) (input : List Char),
      MatchRun p.init_state.start input (p.is_match input) ∧
      ∀ b : Bool, MatchRun p.init_state.start input b → b = p.is_match input :=
  fun p input =>
    ⟨matchRun_total input p.init_state.start, fun _ h => matchRun_det h⟩

/-- C9 witness: the relation realized at a concrete pattern and input,
and determinism discharged on a concrete derivation. -/
theorem claim_C9_total_deterministic_witness :
    MatchRun (Pattern.one 'a').init_state.start ['a']
      ((Pattern.one 'a').is_match ['a']) ∧
    true = (Pattern.one 'a').is_match ['a'] := by
  refine ⟨(claim_C9_total_deterministic (Pattern.one 'a') ['a']).1, ?_⟩
  refine (claim_C9_total_deterministic (Pattern.one 'a') ['a']).2 true ?_
  exact MatchRun.stepCont _ _ _ _ (by decide) (by decide) (MatchRun.done _)
